import Mathlib

/-!
# Verification of the Goedkoopschappen multi-source product aggregation pipeline

A shallow embedding, in Lean 4, of the core pipeline of the repository:

* `src/ah_scraper.py`    — the Albert Heijn source orchestrator and extractor,
* `src/jumbo_scraper.py` — the Jumbo source orchestrator and extractor,
* `src/plus_scraper.py`  — the Plus source orchestrator and extractor,
* `src/app.py`           — the aggregator (`search_products`) and the
                           price-per-unit derivation (`calculate_price_per_unit`).

Conventions used throughout the embedding:

* Python `float` values are idealized as `ℚ` (all the arithmetic appearing in
  the claims is exact on the inputs involved); `float('inf')` is `⊤ : WithTop ℚ`.
* Python `None` is `Option.none`; a fallible operation that the source guards
  with `try/except` returns an `Option` or `Except`.
* Python's `list.sort` (stable) is modelled with `List.insertionSort`, which is
  also stable.
* The regular-expression searches of the source are implemented as explicit
  left-to-right scanners on `List Char`, faithful to `re.search` semantics
  (leftmost match, greedy quantifiers, alternation tried left to right).  In
  each of the patterns appearing in the source, backtracking inside a greedy
  `\d+`, fractional part or `\s*` can never produce a match when the maximal
  run fails (the following token can never match a digit, separator or space),
  so the scanners take maximal runs; alternations and optional literal pieces
  are tried in the regex's order.
-/

/-! ## String and character utilities -/

/-- ASCII lowercase-letter test, the character class `[a-z]` of the regexes
(the scanned text is already lowercased by the source). -/
def isLowerAlpha (c : Char) : Bool :=
  'a' ≤ c && c ≤ 'z'

/-- ASCII lowercasing of one character (the inputs of this pipeline are
ASCII). -/
def charLower (c : Char) : Char :=
  if 'A' ≤ c && c ≤ 'Z' then Char.ofNat (c.toNat + 32) else c

/-- Python's `str.lower()`. -/
def pyLower (s : String) : String :=
  ⟨s.data.map charLower⟩

/-- Python's `str.strip()`: drop leading and trailing whitespace. -/
def pyStrip (s : String) : String :=
  ⟨((s.data.dropWhile Char.isWhitespace).reverse.dropWhile Char.isWhitespace).reverse⟩

/-- The character class `\w` (word character) of Python regexes, restricted to
ASCII as in all inputs of this pipeline. -/
def isWordChar (c : Char) : Bool :=
  c.isAlphanum || c = '_'

/-- `\b` after a word character: the next character is not a word character,
or the string ends. -/
def atWordBoundary : List Char → Bool
  | [] => true
  | c :: _ => !isWordChar c

/-- `(?:[^a-z]|$)`: the next character is not a lowercase letter, or the
string ends (used as the trailing guard of the AH unit regex). -/
def nonAlphaOrEnd : List Char → Bool
  | [] => true
  | c :: _ => !isLowerAlpha c

/-- Is `pre` a prefix of `l`? -/
def isPrefixList : List Char → List Char → Bool
  | [], _ => true
  | _ :: _, [] => false
  | p :: ps, c :: cs => p = c && isPrefixList ps cs

/-- Python's `str.endswith`. -/
def pyEndsWith (s suffix : String) : Bool :=
  isPrefixList suffix.data.reverse s.data.reverse

/-- Does `needle` occur as a contiguous substring of `hay`?  Models Python's
`needle in hay`. -/
def containsSub (hay needle : List Char) : Bool :=
  match hay with
  | [] => isPrefixList needle []
  | _ :: cs => isPrefixList needle hay || containsSub cs needle

/-- Python `needle in hay` on strings. -/
def strContains (hay needle : String) : Bool :=
  containsSub hay.data needle.data

/-- Numeric value of a list of decimal digit characters. -/
def digitsToNat : List Char → Nat
  | [] => 0
  | c :: cs => digitsToNat cs + c.toNat.sub 48 * 10 ^ cs.length

/-- A captured numeric group of the form `\d+(?:[.,]\d+)?`: integer digits, an
optional separator (kept verbatim, as `group(…)` keeps it) and the fractional
digits. -/
structure NumTok where
  ip : List Char
  sep : Option Char
  fp : List Char
deriving Repr, DecidableEq

/-- The captured text of the group, exactly as Python's `match.group` returns
it (original separator included). -/
def NumTok.raw (t : NumTok) : String :=
  match t.sep with
  | none => ⟨t.ip⟩
  | some c => ⟨t.ip ++ [c] ++ t.fp⟩

/-- The captured text after `.replace(',', '.')`. -/
def NumTok.rawDot (t : NumTok) : String :=
  match t.sep with
  | none => ⟨t.ip⟩
  | some _ => ⟨t.ip ++ ['.'] ++ t.fp⟩

/-- `float(...)` of the captured group after `.replace(',', '.')`, exact. -/
def NumTok.toRat (t : NumTok) : ℚ :=
  (digitsToNat t.ip : ℚ) + (digitsToNat t.fp : ℚ) / 10 ^ t.fp.length

/-- Greedy `\d+` at the current position: the maximal digit run and the rest.
Fails when the position does not start with a digit. -/
def takeDigits : List Char → Option (List Char × List Char)
  | [] => none
  | c :: cs =>
    if c.isDigit then
      match takeDigits cs with
      | some (ds, rest) => some (c :: ds, rest)
      | none => some ([c], cs)
    else
      none

/-- Greedy `\s*`: drop the maximal whitespace run. -/
def dropSpaces : List Char → List Char
  | [] => []
  | c :: cs => if c.isWhitespace then dropSpaces cs else c :: cs

/-- Greedy `(?:[.,]\d+)?` after the integer digits: taken exactly when a
separator immediately followed by a digit is present. -/
def takeFraction : List Char → Option Char × List Char × List Char
  | [] => (none, [], [])
  | c :: cs =>
    if c = '.' || c = ',' then
      match takeDigits cs with
      | some (ds, rest) => (some c, ds, rest)
      | none => (none, [], c :: cs)
    else
      (none, [], c :: cs)

/-- Greedy `(\d+(?:[.,]\d+)?)` at the current position. -/
def takeNumTok (cs : List Char) : Option (NumTok × List Char) :=
  match takeDigits cs with
  | none => none
  | some (ds, rest) =>
    match takeFraction rest with
    | (sep, fs, rest') => some (⟨ds, sep, fs⟩, rest')

/-! ## Generic scanners (the `re.search` loops)

`re.search` tries the pattern at every position, left to right; each scanner
below recurses one character at a time, which is exactly that behaviour. -/

/-- Scan for a pattern `(\d+)\s*<tail>` where `tail` is a recognizer of the
remaining text (no fractional part, as in `(\d+)\s*stuk`).  Returns the digit
group of the leftmost match. -/
def scanDigitsThen (f : List Char → Bool) : List Char → Option (List Char)
  | [] => none
  | c :: cs =>
    match takeDigits (c :: cs) with
    | some (ds, rest) => if f (dropSpaces rest) then some ds else scanDigitsThen f cs
    | none => scanDigitsThen f cs

/-- Scan for a pattern `(\d+(?:[.,]\d+)?)\s*<tail>`.  Returns the numeric
group of the leftmost match. -/
def scanNumThen (f : List Char → Bool) : List Char → Option NumTok
  | [] => none
  | c :: cs =>
    match takeNumTok (c :: cs) with
    | some (t, rest) => if f (dropSpaces rest) then some t else scanNumThen f cs
    | none => scanNumThen f cs

/-! ## AH unit-size normalization (`ah_scraper.py` lines 180–190)

Regex: `(\d+)\s*([gk]|kg|gram|stuk)(?:[^a-z]|$)` over the lowercased text. -/

/-- The alternation `([gk]|kg|gram|stuk)` followed by the guard
`(?:[^a-z]|$)`, tried in the regex's left-to-right order; returns the captured
unit text. -/
def ahUnitAlt (cs : List Char) : Option String :=
  match cs with
  | c :: rest =>
    if (c = 'g' || c = 'k') && nonAlphaOrEnd rest then some ⟨[c]⟩
    else if isPrefixList ['k', 'g'] cs && nonAlphaOrEnd (cs.drop 2) then some "kg"
    else if isPrefixList ['g', 'r', 'a', 'm'] cs && nonAlphaOrEnd (cs.drop 4) then some "gram"
    else if isPrefixList ['s', 't', 'u', 'k'] cs && nonAlphaOrEnd (cs.drop 4) then some "stuk"
    else none
  | [] => none

/-- `re.search(r'(\d+)\s*([gk]|kg|gram|stuk)(?:[^a-z]|$)', …)`: digit group
and captured unit of the leftmost match. -/
def ahUnitScan : List Char → Option (List Char × String)
  | [] => none
  | c :: cs =>
    match takeDigits (c :: cs) with
    | some (ds, rest) =>
      match ahUnitAlt (dropSpaces rest) with
      | some u => some (ds, u)
      | none => ahUnitScan cs
    | none => ahUnitScan cs

/-- The unit-size normalization of the AH extractor: if the regex matches,
grams stay as `<n>g`, kilograms become `<n*1000>g`, `stuk` becomes
`<n> stuk`; a unit of `k`/`kg` uses `int(num) * 1000`.  If the regex does not
match (or the captured unit is none of the branch cases) the text is returned
unchanged. -/
def ahNormalizeUnitSize (unit_size : String) : String :=
  match ahUnitScan (pyLower unit_size).data with
  | none => unit_size
  | some (num, unit) =>
    if unit = "g" || unit = "gram" then ⟨num⟩ ++ "g"
    else if unit = "k" || unit = "kg" then toString (digitsToNat num * 1000) ++ "g"
    else if unit = "stuk" then ⟨num⟩ ++ " stuk"
    else unit_size

/-! ## Jumbo `extract_unit_size` (`jumbo_scraper.py` lines 321–365) -/

/-- Tail of pattern 1, `stuks?\b`, after the digits and spaces: literal
`stuk`, a greedy optional `s`, then a word boundary. -/
def jumboStukTail (cs : List Char) : Bool :=
  if isPrefixList ['s', 't', 'u', 'k'] cs then
    match cs.drop 4 with
    | 's' :: r2 => atWordBoundary r2 || atWordBoundary (cs.drop 4)
    | r => atWordBoundary r
  else false

/-- `en?\b` piece of pattern 2: greedy optional `en`, then a word boundary. -/
def jumboEnTail (r : List Char) : Bool :=
  if isPrefixList ['e', 'n'] r then atWordBoundary (r.drop 2) || atWordBoundary r
  else atWordBoundary r

/-- Tail of pattern 2, `plakk?(?:en)?\b`: literal `plak`, greedy optional
`k`, greedy optional `en`, then a word boundary. -/
def jumboPlakTail (cs : List Char) : Bool :=
  if isPrefixList ['p', 'l', 'a', 'k'] cs then
    match cs.drop 4 with
    | 'k' :: r2 => jumboEnTail r2 || jumboEnTail (cs.drop 4)
    | r => jumboEnTail r
  else false

/-- Tail of pattern 3, `k(?:ilo|g)\b`. -/
def jumboKiloTail (cs : List Char) : Bool :=
  match cs with
  | 'k' :: r =>
    (isPrefixList ['i', 'l', 'o'] r && atWordBoundary (r.drop 3)) ||
      (isPrefixList ['g'] r && atWordBoundary (r.drop 1))
  | _ => false

/-- Tail of pattern 4, `(?:g(?:ram)?)\b`: literal `g`, greedy optional
`ram`, then a word boundary. -/
def jumboGramTail (cs : List Char) : Bool :=
  match cs with
  | 'g' :: r => (isPrefixList ['r', 'a', 'm'] r && atWordBoundary (r.drop 3)) || atWordBoundary r
  | _ => false

/-- `extract_unit_size` of the Jumbo scraper.  The branch dispatch of the
source inspects the *pattern text* (`if 'stuk' in pattern`, `elif 'k' in
pattern and ('kg' in pattern or 'kilo' in pattern)`, `elif 'g' in pattern`):
pattern 1 contains `stuk`, pattern 2 contains `plak`, and patterns 3 and 4
both fall into the `'g' in pattern` branch — the kilogram-to-grams conversion
branch is unreachable because neither `kg` nor `kilo` occurs as a contiguous
substring of the pattern text `(\d+(?:[.,]\d+)?)\s*k(?:ilo|g)\b`.  A match of
pattern 3 therefore returns `f"{value}g"` with the raw captured text. -/
def jumboExtractUnitSize (name : String) : String :=
  if name = "" then ""
  else
    let n := pyLower name
    if pyEndsWith n "half" then "400g"
    else if strContains n " heel" || strContains n "-heel" then "800g"
    else if strContains n "half" then "400g"
    else
      match scanDigitsThen jumboStukTail n.data with
      | some v => ⟨v⟩ ++ " stuks"
      | none =>
        match scanDigitsThen jumboPlakTail n.data with
        | some v => ⟨v⟩ ++ " plakken"
        | none =>
          match scanNumThen jumboKiloTail n.data with
          | some t => t.raw ++ "g"
          | none =>
            match scanNumThen jumboGramTail n.data with
            | some t => t.raw ++ "g"
            | none => ""

/-! ## Plus `extract_unit_size` (`plus_scraper.py` lines 126–179) -/

/-- `re.sub(r'^per\s+', '', value)`: strip one leading `per` followed by at
least one whitespace character (and, greedily, all following whitespace). -/
def stripPerPrefix (s : String) : String :=
  match s.data with
  | 'p' :: 'e' :: 'r' :: c :: rest =>
    if c.isWhitespace then ⟨dropSpaces (c :: rest)⟩ else s
  | _ => s

/-- Scan for a pattern `(\d+(?:[.,]\d+)?)\s*<alt>` where the alternation
yields a captured unit character. -/
def scanNumThenChar (f : List Char → Option Char) : List Char → Option (NumTok × Char)
  | [] => none
  | c :: cs =>
    match takeNumTok (c :: cs) with
    | some (t, rest) =>
      match f (dropSpaces rest) with
      | some u => some (t, u)
      | none => scanNumThenChar f cs
    | none => scanNumThenChar f cs

/-- Alternation `([gk]|kg|gram)` with no trailing guard (the `per_match`
pattern of Plus's `extract_unit_size`): the `kg` and `gram` alternatives are
subsumed by `[gk]`, which already matches their first character, so the
captured unit is the single character `g` or `k`. -/
def plusUnitAlt (cs : List Char) : Option Char :=
  match cs with
  | c :: _ => if c = 'g' || c = 'k' then some c else none
  | [] => none

/-- Alternation `([gk]|kg|gram)(?:[^a-z]|$)` of the `weight_match` pattern,
tried in order; the code only branches on the first character of the captured
unit, which is returned. -/
def plusWeightAlt (cs : List Char) : Option Char :=
  match cs with
  | c :: rest =>
    if (c = 'g' || c = 'k') && nonAlphaOrEnd rest then some c
    else if isPrefixList ['k', 'g'] cs && nonAlphaOrEnd (cs.drop 2) then some 'k'
    else if isPrefixList ['g', 'r', 'a', 'm'] cs && nonAlphaOrEnd (cs.drop 4) then some 'g'
    else none
  | [] => none

/-- Tail `(?:x\s*)?stuk` of Plus's `stuk_match` pattern. -/
def plusStukTail (cs : List Char) : Bool :=
  match cs with
  | 'x' :: r => isPrefixList ['s', 't', 'u', 'k'] (dropSpaces r) || isPrefixList ['s', 't', 'u', 'k'] cs
  | _ => isPrefixList ['s', 't', 'u', 'k'] cs

/-- Tail `(?:x\s*)?plak(?:ken)?` of Plus's `plak_match` pattern (the optional
`ken` cannot affect whether the pattern matches). -/
def plusPlakTail (cs : List Char) : Bool :=
  match cs with
  | 'x' :: r => isPrefixList ['p', 'l', 'a', 'k'] (dropSpaces r) || isPrefixList ['p', 'l', 'a', 'k'] cs
  | _ => isPrefixList ['p', 'l', 'a', 'k'] cs

/-- Python `int(...)` of a nonnegative float value (truncation; all the
values this is applied to are nonnegative, where truncation and floor
agree). -/
def ratTruncToNat (q : ℚ) : Nat :=
  (Int.floor q).toNat

/-- `extract_unit_size` of the Plus scraper.  The `weight_match` branch is
unreachable (its pattern only differs from the earlier `per_match` pattern by
an extra trailing guard, so whenever it matches, `per_match` has already
returned); it is nevertheless embedded faithfully below. -/
def plusExtractUnitSize (value : String) : String :=
  if value = "" then ""
  else
    let v := stripPerPrefix (pyStrip (pyLower value))
    match scanNumThenChar plusUnitAlt v.data with
    | some (t, u) =>
      if u = 'k' then toString (ratTruncToNat (t.toRat * 1000)) ++ "g"
      else t.rawDot ++ "g"
    | none =>
      match scanDigitsThen plusStukTail v.data with
      | some ds => ⟨ds⟩ ++ " stuk"
      | none =>
        match scanDigitsThen plusPlakTail v.data with
        | some ds => ⟨ds⟩ ++ " plakken"
        | none =>
          match scanNumThenChar plusWeightAlt v.data with
          | some (t, u) =>
            if u = 'g' then toString (ratTruncToNat t.toRat) ++ "g"
            else toString (ratTruncToNat (t.toRat * 1000)) ++ "g"
          | none =>
            if strContains v "half" then "400g"
            else if v.data ≠ [] && v.data.all Char.isDigit then ⟨v.data⟩ ++ "g"
            else v

/-! ## Plus `calculate_price_per_unit` (`plus_scraper.py` lines 252–282) -/

/-- Scan for a pattern `per\s*(\d+(?:[.,]\d+)?)\s*<tail>` (the literal `per`
precedes the numeric group). -/
def scanPerNumThen (f : List Char → Bool) : List Char → Option NumTok
  | [] => none
  | c :: cs =>
    if isPrefixList ['p', 'e', 'r'] (c :: cs) then
      match takeNumTok (dropSpaces ((c :: cs).drop 3)) with
      | some (t, rest) => if f (dropSpaces rest) then some t else scanPerNumThen f cs
      | none => scanPerNumThen f cs
    else scanPerNumThen f cs

/-- `calculate_price_per_unit(price, unit_size)` of the Plus scraper: pieces
via `(\d+)\s*stuk`, grams via `per\s*(\d+(?:[.,]\d+)?)\s*g`, kilograms via
`per\s*(\d+(?:[.,]\d+)?)\s*kg`; a zero quantity falls through to the next
pattern; no pattern (or an empty unit size) yields `(None, None)`. -/
def plusCalculatePricePerUnit (price : ℚ) (unit_size : String) : Option ℚ × Option String :=
  if unit_size = "" then (none, none)
  else
    let u := pyLower unit_size
    let stukRes : Option ℚ :=
      match scanDigitsThen (fun cs => isPrefixList ['s', 't', 'u', 'k'] cs) u.data with
      | some ds => if 0 < digitsToNat ds then some (price / digitsToNat ds) else none
      | none => none
    match stukRes with
    | some v => (some v, some "stuk")
    | none =>
      let gramRes : Option ℚ :=
        match scanPerNumThen (fun cs => isPrefixList ['g'] cs) u.data with
        | some t => if 0 < t.toRat then some (price * 1000 / t.toRat) else none
        | none => none
      match gramRes with
      | some v => (some v, some "kilo")
      | none =>
        let kgRes : Option ℚ :=
          match scanPerNumThen (fun cs => isPrefixList ['k', 'g'] cs) u.data with
          | some t => if 0 < t.toRat then some (price / t.toRat) else none
          | none => none
        match kgRes with
        | some v => (some v, some "kilo")
        | none => (none, none)

/-! ## The canonical product record

One record per scraped product, as the dictionaries built by the three
scrapers and consumed by the aggregator.  `price` is `none` when the
dictionary has no parsable `price` entry (accessing it raises, which
`calculate_price_per_unit` turns into `float('inf')`).  `unit_size = none`
models Python `None` (the AH scraper stores `None` when no unit-size element
is found); `str(None)` is the string `"None"`. -/
structure Product where
  store : String
  name : String
  price : Option ℚ
  unit_size : Option String := none
  price_per_unit_value : Option ℚ := none
  price_per_unit_unit : Option String := none
  unit_price : Option ℚ := none
  is_bonus : Bool := false
  original_price : Option ℚ := none
  image : String := ""
  link : String := ""
  price_per_unit : Option (WithTop ℚ) := none
deriving Repr, DecidableEq

/-- `str(x)` for the `unit_size` entry: Python renders `None` as `"None"`. -/
def pyStrOfOpt : Option String → String
  | none => "None"
  | some s => s

/-! ## The aggregator's `calculate_price_per_unit` (`app.py` lines 225–278) -/

/-- Tail `k(?:ilo|g)` (no trailing guard) of the aggregator's kg pattern. -/
def appKgTail (cs : List Char) : Bool :=
  match cs with
  | 'k' :: r => isPrefixList ['i', 'l', 'o'] r || isPrefixList ['g'] r
  | _ => false

/-- Tail `g(?:ram)?` (no trailing guard) of the aggregator's gram pattern:
the optional `ram` cannot affect whether the pattern matches. -/
def appGTail (cs : List Char) : Bool :=
  match cs with
  | 'g' :: _ => true
  | _ => false

/-- Python's `unit_size.replace(' ', '')` (removes space characters only). -/
def removeSpaceChar (cs : List Char) : List Char :=
  cs.filter (fun c => c ≠ ' ')

/-- Python's `str.isdigit()` (ASCII fragment): nonempty and all digits. -/
def pyIsDigit (cs : List Char) : Bool :=
  !cs.isEmpty && cs.all Char.isDigit

/-- `calculate_price_per_unit(product)` of `app.py`: the per-product sort
value.  A present `price_per_unit_value` is used directly; otherwise the
price is divided by pieces (`stuk`), slices (`plak`) or grams (converted to
per-kg); an unrecognized or zero-quantity unit size falls back to the raw
price; the `except` branch (missing/unparsable price, or `float(unit_size)`
on a digits-with-spaces string) yields `float('inf')`, i.e. `⊤`. -/
def calculatePricePerUnit (p : Product) : WithTop ℚ :=
  match p.price_per_unit_value with
  | some v => (v : ℚ)
  | none =>
    match p.price with
    | none => ⊤
    | some price =>
      let u := pyStrip (pyLower (pyStrOfOpt p.unit_size))
      if strContains u "stuk" then
        match scanDigitsThen (fun cs => isPrefixList ['s', 't', 'u', 'k'] cs) u.data with
        | some ds =>
          if 0 < digitsToNat ds then ((price / digitsToNat ds : ℚ) : WithTop ℚ)
          else (price : ℚ)
        | none => (price : ℚ)
      else if strContains u "plak" then
        match scanDigitsThen (fun cs => isPrefixList ['p', 'l', 'a', 'k'] cs) u.data with
        | some ds =>
          if 0 < digitsToNat ds then ((price / digitsToNat ds : ℚ) : WithTop ℚ)
          else (price : ℚ)
        | none => (price : ℚ)
      else if strContains u "kg" || strContains u "kilo" then
        match scanNumThen appKgTail u.data with
        | some t =>
          let grams : ℚ := t.toRat * 1000
          if 0 < grams then ((price / grams * 1000 : ℚ) : WithTop ℚ) else (price : ℚ)
        | none => (price : ℚ)
      else if strContains u "g" || strContains u "gram" then
        match scanNumThen appGTail u.data with
        | some t =>
          let grams : ℚ := t.toRat
          if 0 < grams then ((price / grams * 1000 : ℚ) : WithTop ℚ) else (price : ℚ)
        | none => (price : ℚ)
      else if pyIsDigit (removeSpaceChar u.data) then
        -- `grams = float(unit_size)`: raises `ValueError` (→ `float('inf')`)
        -- when the digits are separated by spaces, since only the copy with
        -- spaces removed was checked by `isdigit()`
        if u.data.any (fun c => c = ' ') then ⊤
        else
          let grams : ℚ := digitsToNat u.data
          if 0 < grams then ((price / grams * 1000 : ℚ) : WithTop ℚ) else (price : ℚ)
      else (price : ℚ)

/-! ## Python `float(...)` on simple decimal strings -/

/-- `float(s)` on the decimal fragment used by this pipeline: optional sign,
integer digits, optional dot and fractional digits (at least one digit in
total), surrounded by optional whitespace; anything else raises, i.e. is
`none`. -/
def pyFloat? (s : String) : Option ℚ :=
  let cs := (pyStrip s).data
  let signAndRest : Bool × List Char :=
    match cs with
    | '-' :: r => (true, r)
    | '+' :: r => (false, r)
    | _ => (false, cs)
  let body := signAndRest.2
  let ip := body.takeWhile Char.isDigit
  let rest := body.dropWhile Char.isDigit
  let core : Option ℚ :=
    match rest with
    | [] => if ip.isEmpty then none else some (digitsToNat ip)
    | '.' :: fp =>
      if fp.all Char.isDigit && !(ip.isEmpty && fp.isEmpty) then
        some ((digitsToNat ip : ℚ) + (digitsToNat fp : ℚ) / 10 ^ fp.length)
      else none
    | _ => none
  core.map (fun v => if signAndRest.1 then -v else v)

/-! ## Jumbo price scanners (`jumbo_scraper.py` lines 249 and 263) -/

/-- `(\d{0,2})` greedy: up to two digits and the rest. -/
def upTo2Digits : List Char → List Char × List Char
  | [] => ([], [])
  | [a] => if a.isDigit then ([a], []) else ([], [a])
  | a :: b :: r =>
    if a.isDigit then
      if b.isDigit then ([a, b], r) else ([a], b :: r)
    else ([], a :: b :: r)

/-- `re.search(r'€\s*(\d+)[,\.]?(\d{0,2})', …)`: the euro and cent digit
groups of the leftmost match.  After the maximal `\d+`, the optional
separator is taken when present and `(\d{0,2})` takes up to two digits; with
no trailing context, the first position whose `€` is followed (after spaces)
by a digit matches. -/
def euroScan : List Char → Option (List Char × List Char)
  | [] => none
  | c :: cs =>
    if c = '€' then
      match takeDigits (dropSpaces cs) with
      | some (ds, rest) =>
        let afterSep :=
          match rest with
          | c' :: r => if c' = ',' || c' = '.' then r else rest
          | [] => []
        some (ds, (upTo2Digits afterSep).1)
      | none => euroScan cs
    else euroScan cs

/-- `float(f"{group(1)}.{group(2) or '00'}")`: euros plus the cent digits
scaled by their count (an empty cents group reads as `00`). -/
def euroCentsToRat (euros cents : List Char) : ℚ :=
  (digitsToNat euros : ℚ) + (digitsToNat cents : ℚ) / 10 ^ cents.length

/-- `\w+` greedy: the maximal word-character run. -/
def takeWord : List Char → Option (List Char × List Char)
  | [] => none
  | c :: cs =>
    if isWordChar c then
      match takeWord cs with
      | some (ws, rest) => some (c :: ws, rest)
      | none => some ([c], cs)
    else none

/-- `\s+`: at least one whitespace character, greedily consumed. -/
def dropSpaces1 : List Char → Option (List Char)
  | [] => none
  | c :: cs => if c.isWhitespace then some (dropSpaces cs) else none

/-- The tail `\s+per\s+(\w+)` of the unit-price pattern; returns the word
group. -/
def perUnitTail (cs : List Char) : Option (List Char) :=
  match dropSpaces1 cs with
  | none => none
  | some r =>
    if isPrefixList ['p', 'e', 'r'] r then
      match dropSpaces1 (r.drop 3) with
      | none => none
      | some r2 =>
        match takeWord r2 with
        | some (w, _) => some w
        | none => none
    else none

/-- The `[,\.]?(\d{0,2})\s+per\s+(\w+)` tail of the unit-price pattern, with
the regex's greedy backtracking on the cents group (two digits, then one,
then zero; leaving the separator unconsumed instead can never match, since
`\s+` cannot match a separator or digit). -/
def euroPerCents (rest : List Char) : Option (List Char × List Char) :=
  let after :=
    match rest with
    | c :: r => if c = ',' || c = '.' then r else rest
    | [] => []
  match upTo2Digits after with
  | (fs, r2) =>
    match perUnitTail r2 with
    | some w => some (fs, w)
    | none =>
      match fs with
      | [a, b] =>
        match perUnitTail (b :: r2) with
        | some w => some ([a], w)
        | none =>
          match perUnitTail (a :: b :: r2) with
          | some w => some ([], w)
          | none => none
      | [a] =>
        match perUnitTail (a :: r2) with
        | some w => some ([], w)
        | none => none
      | _ => none

/-- `re.search(r'€\s*(\d+)[,\.]?(\d{0,2})\s+per\s+(\w+)', …)`: euro digits,
cent digits and unit word of the leftmost match. -/
def euroPerScan : List Char → Option (List Char × List Char × List Char)
  | [] => none
  | c :: cs =>
    if c = '€' then
      match takeDigits (dropSpaces cs) with
      | some (ds, rest) =>
        match euroPerCents rest with
        | some (fs, w) => some (ds, fs, w)
        | none => euroPerScan cs
      | none => euroPerScan cs
    else euroPerScan cs

/-! ## Jumbo per-record processing (`jumbo_scraper.py` lines 246–298) -/

/-- One raw Jumbo record as produced by the extraction schema: the fields the
Python processing loop reads (`price`, `unit_price`, `unit_size` are the
already-transformed strings, empty when nothing was extracted).  Fields that
only feed the presentation layer are not modelled. -/
structure JumboRaw where
  name : String
  image : String := ""
  link : String := ""
  price : String := ""
  unit_price : String := ""
  unit_size : String := ""
deriving Repr, DecidableEq

/-- Python's `str.startswith`. -/
def pyStartsWith (s pre : String) : Bool :=
  isPrefixList pre.data s.data

/-- The body of the Jumbo per-product loop: skip the record when the price
regex does not match (`continue`); otherwise parse the price, parse the
per-unit price from the `unit_price` string, fall back to
`extract_unit_size(name)` for the unit size and, failing that, infer `1 stuk`
or `800g` from the per-unit word. -/
def jumboProcessRaw (r : JumboRaw) : Option Product :=
  match euroScan r.price.data with
  | none => none
  | some (es, cs) =>
    let price := euroCentsToRat es cs
    let ppu : Option ℚ × Option String :=
      if r.unit_price ≠ "" then
        match euroPerScan r.unit_price.data with
        | some (es2, cs2, w) => (some (euroCentsToRat es2 cs2), some ⟨w⟩)
        | none => (none, none)
      else (none, none)
    let unitSize0 := if r.unit_size ≠ "" then r.unit_size else jumboExtractUnitSize r.name
    let unitSize :=
      if unitSize0 = "" then
        match ppu.2 with
        | some u => if u = "stuk" then "1 stuk" else if u = "kilo" then "800g" else ""
        | none => ""
      else unitSize0
    some { store := "jumbo", name := r.name, image := r.image,
           link := if pyStartsWith r.link "http" then r.link else "https://www.jumbo.com" ++ r.link,
           price := some price, unit_size := some unitSize,
           price_per_unit_value := ppu.1, price_per_unit_unit := ppu.2 }

/-! ## AH per-card extraction (`ah_scraper.py` lines 130–280) -/

/-- One AH product card as seen through the selectors the extractor queries:
`none` models an absent element (`css_first` returning `None`), so that the
source's `continue`/`AttributeError` skip paths are represented.  Fields that
only feed the presentation layer (nutriscore, properties, stock status,
display strings) are not modelled. -/
structure AhCard where
  name : Option String := none
  priceElement : Bool := false
  priceInteger : Option String := none
  priceFractional : Option String := none
  bonusElement : Bool := false
  strikeText : Option String := none
  unitSizeText : Option String := none
  unitPriceText : Option String := none
  imageSrc : Option String := none
  linkHref : Option String := none
deriving Repr, DecidableEq

/-- Python's `s.replace('€', '')`. -/
def removeEuros (s : String) : String :=
  ⟨s.data.filter (fun c => c ≠ '€')⟩

/-- Python's `s.replace(',', '.')`. -/
def commaToDot (s : String) : String :=
  ⟨s.data.map (fun c => if c = ',' then '.' else c)⟩

/-- Python's `s.split('/')[0]`: the text before the first `/`. -/
def beforeSlash (s : String) : String :=
  ⟨s.data.takeWhile (fun c => c ≠ '/')⟩

/-- The AH per-card processing: a card with no name, no price element, a
price that does not parse (`float(f"{integer}.{fractional}")` raising), no
image element, an empty image `src`, or no product link is skipped
(`continue`), i.e. `none`; any other card yields a product record.  A bonus
marker sets `is_bonus`, and the strikethrough price is parsed best-effort
(staying absent when unparsable).  Note: no check whatsoever is made on the
*value* of the parsed price. -/
def extractAhCard (c : AhCard) : Option Product :=
  match c.name with
  | none => none
  | some nmText =>
    let nm := pyStrip nmText
    if !c.priceElement then none
    else
      match c.priceInteger, c.priceFractional with
      | some i, some f =>
        match pyFloat? (i ++ "." ++ f) with
        | none => none
        | some price =>
          let origPrice : Option ℚ :=
            if c.bonusElement then
              match c.strikeText with
              | some t => pyFloat? (commaToDot (removeEuros (pyStrip t)))
              | none => none
            else none
          let unitSize : Option String := c.unitSizeText.map (fun t => ahNormalizeUnitSize (pyStrip t))
          let unitPriceVal : Option ℚ :=
            match c.unitPriceText with
            | some t => pyFloat? (pyStrip (removeEuros (beforeSlash (pyStrip t))))
            | none => none
          match c.imageSrc with
          | none => none
          | some img =>
            if img = "" then none
            else
              match c.linkHref with
              | none => none
              | some href =>
                some { store := "ah", name := nm, price := some price,
                       unit_size := unitSize, is_bonus := c.bonusElement,
                       original_price := origPrice, unit_price := unitPriceVal,
                       image := img, link := "https://www.ah.nl" ++ href }
      | _, _ => none

/-! ## Plus price parsing and per-record cleaning (`plus_scraper.py`) -/

/-- `parse_price(price_integer, price_decimal)` (lines 106–124): keep digits
and dots in the integer part, strip trailing dots, `int` it (a remaining
inner dot raises `ValueError`, making the whole function return `0.0`); keep
digits in the decimal part; combine as `float(f"{integer}.{decimal:02d}")`
(the decimal value zero-padded to at least two digits). -/
def plusParsePrice (price_integer price_decimal : String) : ℚ :=
  let istr0 := price_integer.data.filter (fun c => c.isDigit || c = '.')
  let istr := (istr0.reverse.dropWhile (fun c => c = '.')).reverse
  if istr.any (fun c => c = '.') then 0
  else
    let ival := digitsToNat istr
    let dstr := price_decimal.data.filter Char.isDigit
    let dval := digitsToNat dstr
    (ival : ℚ) + (dval : ℚ) / 10 ^ (max 2 (Nat.toDigits 10 dval).length)

/-- Scan for `(\d+)<tail>` with no whitespace allowed between the digits and
the tail (the `(\d+)g` pattern of the Plus grams check). -/
def scanDigitsTight (f : List Char → Bool) : List Char → Option (List Char)
  | [] => none
  | c :: cs =>
    match takeDigits (c :: cs) with
    | some (ds, rest) => if f rest then some ds else scanDigitsTight f cs
    | none => scanDigitsTight f cs

/-- One raw Plus record as produced by the extraction schema: `name`, `image`
and `brand` transforms may yield `None`; `unit_size` is already
`extract_unit_size` of the complementary text; the underscore-prefixed price
parts default to `''` when absent. -/
structure PlusRaw where
  name : Option String := none
  image : Option String := none
  priceInteger : String := ""
  priceDecimal : String := ""
  unit_info : Option String := none
  unit_size : Option String := none
deriving Repr, DecidableEq

/-- The Plus per-record cleaning loop (lines 369–435): every raw record
yields exactly one cleaned product — a non-positive parsed price is only
logged (`Invalid price …`), the record is *not* dropped, and its `price`
entry keeps the schema-computed `parse_price` value.  When the unit size
contains a `(\d+)g` match with positive grams, `calculate_price_per_unit`
fills the per-unit fields.  The detail-link construction from the image URL
is presentation-only and not modelled (`link` is left empty); a `None` name
is rendered as Python renders it in the dedup key f-string. -/
def plusCleanRaw (r : PlusRaw) : Product :=
  let price := plusParsePrice r.priceInteger r.priceDecimal
  let u := r.unit_size.getD ""
  let ppu : Option ℚ × Option String :=
    if strContains u "g" then
      match scanDigitsTight (fun cs => isPrefixList ['g'] cs) u.data with
      | some ds =>
        if 0 < digitsToNat ds then plusCalculatePricePerUnit price u else (none, none)
      | none => (none, none)
    else (none, none)
  { store := "plus", name := pyStrOfOpt r.name, price := some price,
    unit_size := some u, image := (r.image.getD ""),
    price_per_unit_value := ppu.1, price_per_unit_unit := ppu.2 }

/-! ## Source orchestrators (cache check, fetch, extract, sort, cache write) -/

/-- The outcome of one orchestrator call: what is returned to the caller
(`Except` since AH and Jumbo re-raise fetch failures) and what, if anything,
is written to the cache for this `(source, term)` key. -/
structure ScrapeOutcome where
  returned : Except String (List Product)
  cacheWrite : Option (List Product)
deriving Repr

/-- `products.sort(key=lambda x: x['price'])` — Python's stable sort by the
numeric price (every freshly scraped product carries a price). -/
def sortByPriceKey (l : List Product) : List Product :=
  List.insertionSort (fun a b => a.price.getD 0 ≤ b.price.getD 0) l

/-- The fresh-scrape path of `scrape_ah_products` (lines 108–294): on a fetch
exception the `except` block re-raises; on success the per-card extraction
results are sorted by price, cached only when nonempty, and returned. -/
def ahScrape (fetch : Except String (List AhCard)) : ScrapeOutcome :=
  match fetch with
  | .error e => ⟨.error e, none⟩
  | .ok cards =>
    let products := sortByPriceKey (cards.filterMap extractAhCard)
    ⟨.ok products, if products.isEmpty then none else some products⟩

/-- The fresh-scrape path of `scrape_jumbo_products` (lines 186–319): a crawl
exception is re-raised; `result.extracted_content` being empty returns `[]`
with no cache write; otherwise the processed records are sorted by price,
cached only when nonempty, and returned. -/
def jumboScrape (fetch : Except String (Option (List JumboRaw))) : ScrapeOutcome :=
  match fetch with
  | .error e => ⟨.error e, none⟩
  | .ok none => ⟨.ok [], none⟩
  | .ok (some raws) =>
    let products := sortByPriceKey (raws.filterMap jumboProcessRaw)
    ⟨.ok products, if products.isEmpty then none else some products⟩

/-- The fresh-scrape path of `scrape_plus_products` (lines 301–445): *any*
exception is caught and turned into `return []` (no re-raise); an empty
`extracted_content` or an empty raw product list also returns `[]` without
caching; a nonempty raw list is cleaned (one product per raw record,
unconditionally) and cached unconditionally. -/
def plusScrape (fetch : Except String (Option (List PlusRaw))) : ScrapeOutcome :=
  match fetch with
  | .error _ => ⟨.ok [], none⟩
  | .ok none => ⟨.ok [], none⟩
  | .ok (some raws) =>
    if raws.isEmpty then ⟨.ok [], none⟩
    else
      let cleaned := raws.map plusCleanRaw
      ⟨.ok cleaned, some cleaned⟩

/-- An AH/Jumbo orchestrator call including the cache prelude: when the
cache is fresh and readable (`load_from_cache` not returning `None`), the
cached list is returned as-is; otherwise the fresh path runs. -/
def scrapeWithCache (stale : Bool) (cached : Option (List Product))
    (fresh : ScrapeOutcome) : ScrapeOutcome :=
  if !stale then
    match cached with
    | some ps => ⟨.ok ps, none⟩
    | none => fresh
  else fresh

/-! ## Freshness cache staleness (`should_update_cache`, identical in the
three scrapers, e.g. `ah_scraper.py` lines 28–50) -/

/-- What reading a cache entry can yield: no file, an unreadable/corrupt
file (any exception while reading or parsing), or a timestamp (seconds). -/
inductive CacheRead where
  | absent
  | corrupt
  | entry (timestamp : ℚ)
deriving Repr, DecidableEq

/-- `CACHE_DURATION = timedelta(hours=12)`, in seconds. -/
def cacheDurationSeconds : ℚ := 12 * 3600

/-- `CACHE_DURATION_VARIANCE = timedelta(hours=4)`, in seconds. -/
def cacheVarianceSeconds : ℚ := 4 * 3600

/-- `should_update_cache`: an absent file is stale; a reading/parsing
exception is stale; otherwise the entry is stale iff
`now - timestamp > CACHE_DURATION + variance`, where `variance` (the jitter)
is drawn uniformly from `[-CACHE_DURATION_VARIANCE, CACHE_DURATION_VARIANCE]`
anew on every check; the draw is a parameter here. -/
def shouldUpdateCache (entry : CacheRead) (now jitter : ℚ) : Bool :=
  match entry with
  | .absent => true
  | .corrupt => true
  | .entry ts => decide (now - ts > cacheDurationSeconds + jitter)

/-! ## The aggregator, `search_products` (`app.py` lines 280–356) -/

/-- The dedup identity key `f"{product.get('store')}_{product.get('name')}"`. -/
def productKey (p : Product) : String :=
  p.store ++ "_" ++ p.name

/-- The dedup loop over the concatenated per-source results: a product whose
key is already in `seen_products` is dropped, otherwise it is appended and
its key recorded.  First occurrence wins. -/
def dedupGo : List Product → List String → List Product
  | [], _ => []
  | p :: ps, seen =>
    if productKey p ∈ seen then dedupGo ps seen
    else p :: dedupGo ps (productKey p :: seen)

/-- The outer loop over `asyncio.gather(..., return_exceptions=True)`
results: an exception contributes nothing (it is only printed), a list
contributes its products in order.  (The `isinstance(result, dict)` branch is
dead for the three list-returning scrapers and is not modelled.) -/
def collectOk : List (Except String (List Product)) → List Product
  | [] => []
  | .error _ :: rs => collectOk rs
  | .ok l :: rs => l ++ collectOk rs

/-- The JSON value returned by the `/search_products` route: the product
list, its length, and the optional `message` of the no-products response.
There is no field of any kind describing failed sources. -/
structure SearchResponse where
  products : List Product
  count : Nat
  message : Option String
deriving Repr, DecidableEq

/-- Lines 324–334: attach `product['price_per_unit']`, either the
pre-computed `price_per_unit_value` or `calculate_price_per_unit`. -/
def attachPpu (p : Product) : Product :=
  { p with
    price_per_unit := some (match p.price_per_unit_value with
      | some v => (v : ℚ)
      | none => calculatePricePerUnit p) }

/-- The sort key `x.get('price_per_unit', float('inf'))`. -/
def ppuSortKey (p : Product) : WithTop ℚ :=
  p.price_per_unit.getD ⊤

/-- The sort key `float(str(x.get('price', '0')).replace('€', '').replace(',', '.'))`. -/
def priceSortKey (p : Product) : ℚ :=
  p.price.getD 0

/-- The core of `search_products`: dedup the successful sources' concatenated
results, attach the per-product sort value, sort by the requested key
(stable), and build the response; an empty merged list yields the
`No products found` message.  Failed sources leave no trace beyond their
missing products. -/
def searchProducts (results : List (Except String (List Product)))
    (sortBy : String) : SearchResponse :=
  let merged := dedupGo (collectOk results) []
  let withPpu := merged.map attachPpu
  let sorted :=
    if sortBy = "price_per_unit" then
      List.insertionSort (fun a b => ppuSortKey a ≤ ppuSortKey b) withPpu
    else if sortBy = "price" then
      List.insertionSort (fun a b => priceSortKey a ≤ priceSortKey b) withPpu
    else withPpu
  if sorted.isEmpty then
    ⟨[], 0, some "No products found. Please try a different search term."⟩
  else
    ⟨sorted, sorted.length, none⟩

/-! # Theorems -/

/-- **C5.** For every readable, well-formed cache entry and every jitter draw
in `[-variance, +variance]`: the staleness check returns `true` whenever the
elapsed time since the entry's timestamp exceeds `base + variance` (12h+4h),
and `false` whenever the elapsed time is less than `base - variance`
(12h−4h); an absent or unreadable/corrupt entry is always reported stale. -/
theorem c5_staleness_window (ts now jitter : ℚ)
    (hlo : -cacheVarianceSeconds ≤ jitter) (hhi : jitter ≤ cacheVarianceSeconds) :
    (now - ts > cacheDurationSeconds + cacheVarianceSeconds →
      shouldUpdateCache (.entry ts) now jitter = true) ∧
    (now - ts < cacheDurationSeconds - cacheVarianceSeconds →
      shouldUpdateCache (.entry ts) now jitter = false) ∧
    shouldUpdateCache .absent now jitter = true ∧
    shouldUpdateCache .corrupt now jitter = true := by
  refine ⟨fun h => ?_, fun h => ?_, rfl, rfl⟩ <;>
    simp only [shouldUpdateCache, decide_eq_true_eq, decide_eq_false_iff_not, not_lt] <;>
    linarith

/-- Witness for C5 at concrete inputs: timestamp 0, jitter 0; elapsed
57601 s (> 12h+4h = 57600 s) is stale, elapsed 28799 s (< 12h−4h = 28800 s)
is not, and an absent entry is stale. -/
theorem c5_staleness_window_witness :
    shouldUpdateCache (.entry 0) 57601 0 = true ∧
    shouldUpdateCache (.entry 0) 28799 0 = false ∧
    shouldUpdateCache .absent 0 0 = true := by
  have hvar : -cacheVarianceSeconds ≤ (0 : ℚ) ∧ (0 : ℚ) ≤ cacheVarianceSeconds := by
    norm_num [cacheVarianceSeconds]
  have h1 := c5_staleness_window 0 57601 0 hvar.1 hvar.2
  have h2 := c5_staleness_window 0 28799 0 hvar.1 hvar.2
  refine ⟨h1.1 ?_, h2.2.1 ?_, h1.2.2.1⟩ <;>
    norm_num [cacheDurationSeconds, cacheVarianceSeconds]

/-- **C3.** For every source orchestrator (AH, Jumbo and Plus), when a fresh
scrape yields an empty product list, nothing is written to the cache. -/
theorem c3_empty_scrape_not_cached :
    (∀ fetch : Except String (List AhCard),
      (ahScrape fetch).returned = .ok [] → (ahScrape fetch).cacheWrite = none) ∧
    (∀ fetch : Except String (Option (List JumboRaw)),
      (jumboScrape fetch).returned = .ok [] → (jumboScrape fetch).cacheWrite = none) ∧
    (∀ fetch : Except String (Option (List PlusRaw)),
      (plusScrape fetch).returned = .ok [] → (plusScrape fetch).cacheWrite = none) := by
  refine ⟨fun fetch h => ?_, fun fetch h => ?_, fun fetch h => ?_⟩
  · cases fetch with
    | error e => simp [ahScrape] at h
    | ok cards =>
      simp only [ahScrape, Except.ok.injEq] at h
      simp [ahScrape, h]
  · cases fetch with
    | error e => simp [jumboScrape] at h
    | ok o =>
      cases o with
      | none => rfl
      | some raws =>
        simp only [jumboScrape, Except.ok.injEq] at h
        simp [jumboScrape, h]
  · cases fetch with
    | error e => rfl
    | ok o =>
      cases o with
      | none => rfl
      | some raws =>
        cases hr : raws.isEmpty with
        | true => simp [plusScrape, hr]
        | false =>
          simp only [plusScrape, hr, Bool.false_eq_true, if_false, Except.ok.injEq] at h
          rw [List.map_eq_nil_iff] at h
          simp [h] at hr

/-- Witness for C3 at concrete inputs: a successful fetch whose extraction
yields no products, for each of the three scrapers. -/
theorem c3_empty_scrape_not_cached_witness :
    (ahScrape (.ok [])).cacheWrite = none ∧
    (jumboScrape (.ok (some []))).cacheWrite = none ∧
    (plusScrape (.ok (some []))).cacheWrite = none := by
  refine ⟨c3_empty_scrape_not_cached.1 (.ok []) rfl,
    c3_empty_scrape_not_cached.2.1 (.ok (some [])) rfl,
    c3_empty_scrape_not_cached.2.2 (.ok (some [])) rfl⟩

/-- The relation products are sorted by in the scrapers
(`key=lambda x: x['price']`). -/
instance : IsTotal Product (fun a b => a.price.getD 0 ≤ b.price.getD 0) :=
  ⟨fun _ _ => le_total _ _⟩

instance : IsTrans Product (fun a b => a.price.getD 0 ≤ b.price.getD 0) :=
  ⟨fun _ _ _ => le_trans⟩

instance : IsTotal Product (fun a b => ppuSortKey a ≤ ppuSortKey b) :=
  ⟨fun _ _ => le_total _ _⟩

instance : IsTrans Product (fun a b => ppuSortKey a ≤ ppuSortKey b) :=
  ⟨fun _ _ _ => le_trans⟩

instance : IsTotal Product (fun a b => priceSortKey a ≤ priceSortKey b) :=
  ⟨fun _ _ => le_total _ _⟩

instance : IsTrans Product (fun a b => priceSortKey a ≤ priceSortKey b) :=
  ⟨fun _ _ _ => le_trans⟩

/-- **C10 (implicit).** For the AH and Jumbo scrapers, every fresh
(non-cached) scrape returns its product list sorted in non-decreasing order
of the numeric price field; when a cache write happens it writes exactly that
sorted list; and a subsequent cache hit for the key returns the stored list
unchanged, hence price-sorted. -/
theorem c10_fresh_scrape_sorted_and_cached :
    (∀ (cards : List AhCard) (l : List Product),
      (ahScrape (.ok cards)).returned = .ok l →
      List.Sorted (fun a b => a.price.getD 0 ≤ b.price.getD 0) l ∧
      ∀ w, (ahScrape (.ok cards)).cacheWrite = some w →
        w = l ∧ ∀ fresh, scrapeWithCache false (some w) fresh = ⟨.ok w, none⟩) ∧
    (∀ (raws : List JumboRaw) (l : List Product),
      (jumboScrape (.ok (some raws))).returned = .ok l →
      List.Sorted (fun a b => a.price.getD 0 ≤ b.price.getD 0) l ∧
      ∀ w, (jumboScrape (.ok (some raws))).cacheWrite = some w →
        w = l ∧ ∀ fresh, scrapeWithCache false (some w) fresh = ⟨.ok w, none⟩) := by
  constructor
  · intro cards l h
    simp only [ahScrape, Except.ok.injEq] at h
    subst h
    refine ⟨List.sorted_insertionSort _ _, fun w hw => ?_⟩
    simp only [ahScrape] at hw
    constructor
    · by_cases he : (sortByPriceKey (cards.filterMap extractAhCard)).isEmpty <;>
        simp [he] at hw <;> simp [hw]
    · intro fresh
      rfl
  · intro raws l h
    simp only [jumboScrape, Except.ok.injEq] at h
    subst h
    refine ⟨List.sorted_insertionSort _ _, fun w hw => ?_⟩
    simp only [jumboScrape] at hw
    constructor
    · by_cases he : (sortByPriceKey (raws.filterMap jumboProcessRaw)).isEmpty <;>
        simp [he] at hw <;> simp [hw]
    · intro fresh
      rfl

/-- A sample AH card with all required fields present (price €2.49). -/
def ahSampleCard : AhCard :=
  { name := some "Test kaas", priceElement := true, priceInteger := some "2",
    priceFractional := some "49", imageSrc := some "http://img",
    linkHref := some "/producten/product/1" }

/-- A sample raw Jumbo record (price €2,49). -/
def jumboSampleRaw : JumboRaw :=
  { name := "Test kaas 400g", price := "€2,49" }

/-- Witness for C10: the fresh AH and Jumbo results for one concrete card
each are price-sorted. -/
theorem c10_fresh_scrape_sorted_and_cached_witness :
    List.Sorted (fun a b : Product => a.price.getD 0 ≤ b.price.getD 0)
      (sortByPriceKey ([ahSampleCard].filterMap extractAhCard)) ∧
    List.Sorted (fun a b : Product => a.price.getD 0 ≤ b.price.getD 0)
      (sortByPriceKey ([jumboSampleRaw].filterMap jumboProcessRaw)) :=
  ⟨(c10_fresh_scrape_sorted_and_cached.1 [ahSampleCard] _ rfl).1,
   (c10_fresh_scrape_sorted_and_cached.2 [jumboSampleRaw] _ rfl).1⟩

/-! ### Dedup properties (towards C6) -/

theorem dedupGo_sublist (l : List Product) (seen : List String) :
    List.Sublist (dedupGo l seen) l := by
  induction l generalizing seen with
  | nil => simp [dedupGo]
  | cons p ps ih =>
    by_cases h : productKey p ∈ seen
    · simp only [dedupGo, if_pos h]
      exact (ih seen).cons p
    · simp only [dedupGo, if_neg h]
      exact (ih _).cons₂ p

theorem dedupGo_keys_nodup (l : List Product) (seen : List String) :
    ((dedupGo l seen).map productKey).Nodup ∧
    ∀ k ∈ (dedupGo l seen).map productKey, k ∉ seen := by
  induction l generalizing seen with
  | nil => simp [dedupGo]
  | cons p ps ih =>
    by_cases h : productKey p ∈ seen
    · simpa [dedupGo, h] using ih seen
    · have ih2 := ih (productKey p :: seen)
      simp only [dedupGo, if_neg h, List.map_cons, List.nodup_cons]
      refine ⟨⟨fun hmem => ?_, ih2.1⟩, ?_⟩
      · exact (ih2.2 _ hmem) (List.mem_cons_self _ _)
      · intro k hk
        rcases List.mem_cons.mp hk with hk | hk
        · subst hk; exact h
        · intro hkseen
          exact (ih2.2 _ hk) (List.mem_cons_of_mem _ hkseen)

theorem dedupGo_complete (l : List Product) (seen : List String) :
    ∀ p ∈ l, productKey p ∈ seen ∨ productKey p ∈ (dedupGo l seen).map productKey := by
  induction l generalizing seen with
  | nil => simp
  | cons q ps ih =>
    intro p hp
    by_cases h : productKey q ∈ seen
    · rcases List.mem_cons.mp hp with rfl | hp
      · exact Or.inl h
      · simpa [dedupGo, h] using ih seen p hp
    · simp only [dedupGo, if_neg h, List.map_cons]
      rcases List.mem_cons.mp hp with rfl | hp
      · exact Or.inr (List.mem_cons_self _ _)
      · rcases ih (productKey q :: seen) p hp with hs | hs
        · rcases List.mem_cons.mp hs with he | hs'
          · exact Or.inr (he ▸ List.mem_cons_self _ _)
          · exact Or.inl hs'
        · exact Or.inr (List.mem_cons_of_mem _ hs)

/-- The three store tags of the application pairwise give different dedup
keys, whatever the product names: the key is the plain f-string
`{store}_{name}`, and none of `ah`, `jumbo`, `plus` is a prefix of another. -/
theorem productKey_ne_of_store_ne (p q : Product)
    (hp : p.store ∈ (["ah", "jumbo", "plus"] : List String))
    (hq : q.store ∈ (["ah", "jumbo", "plus"] : List String))
    (hne : p.store ≠ q.store) : productKey p ≠ productKey q := by
  have hdata : ∀ s n : String, (s ++ "_" ++ n).data = s.data ++ '_' :: n.data := by
    intro s n
    rw [String.data_append, String.data_append]
    simp
  intro heq
  have h2 := congrArg String.data heq
  rw [productKey, productKey, hdata, hdata] at h2
  simp only [List.mem_cons, List.mem_singleton, List.not_mem_nil, or_false] at hp hq
  rcases hp with h1 | h1 | h1 <;> rcases hq with h3 | h3 | h3 <;>
    rw [h1, h3] at h2 hne <;> simp_all

/-- **C6.** Merging two per-source lists concatenates them in
source-invocation order and keeps, per `(store, name)` identity key, only the
first occurrence: same store and name → one entry (the earlier one); same
name but different (application) stores → two entries; the survivors keep
their concatenation order (sublist), surviving keys are pairwise distinct,
and every incoming key is represented. -/
theorem c6_merge_dedup_first_wins :
    (∀ l1 l2 : List Product,
      dedupGo (collectOk [.ok l1, .ok l2]) [] = dedupGo (l1 ++ l2) []) ∧
    (∀ p q : Product, productKey p = productKey q → dedupGo [p, q] [] = [p]) ∧
    (∀ p q : Product, p.store ∈ (["ah", "jumbo", "plus"] : List String) →
      q.store ∈ (["ah", "jumbo", "plus"] : List String) → p.store ≠ q.store →
      p.name = q.name → dedupGo [p, q] [] = [p, q]) ∧
    (∀ l1 l2 : List Product, List.Sublist (dedupGo (l1 ++ l2) []) (l1 ++ l2)) ∧
    (∀ l1 l2 : List Product, ((dedupGo (l1 ++ l2) []).map productKey).Nodup) ∧
    (∀ l1 l2 : List Product, ∀ p ∈ l1 ++ l2,
      productKey p ∈ (dedupGo (l1 ++ l2) []).map productKey) := by
  refine ⟨?_, ?_, ?_, ?_, ?_, ?_⟩
  · intro l1 l2
    simp [collectOk]
  · intro p q h
    simp [dedupGo, h]
  · intro p q hp hq hne _
    have hk := productKey_ne_of_store_ne p q hp hq hne
    simp [dedupGo, Ne.symm hk]
  · intro l1 l2
    exact dedupGo_sublist _ _
  · intro l1 l2
    exact (dedupGo_keys_nodup _ _).1
  · intro l1 l2 p hp
    rcases dedupGo_complete (l1 ++ l2) [] p hp with h | h
    · simp at h
    · exact h

/-- Two identical-key records (same store, same name). -/
def c6SampleA : Product := { store := "ah", name := "Gouda", price := some 3 }

/-- Same name as `c6SampleA` but a different store. -/
def c6SampleB : Product := { store := "jumbo", name := "Gouda", price := some 4 }

/-- Witness for C6 at concrete inputs: a duplicated `(store, name)` pair
collapses to the earlier record; the same name at two stores keeps both. -/
theorem c6_merge_dedup_first_wins_witness :
    dedupGo [c6SampleA, { c6SampleA with price := some 99 }] [] = [c6SampleA] ∧
    dedupGo [c6SampleA, c6SampleB] [] = [c6SampleA, c6SampleB] := by
  constructor
  · exact c6_merge_dedup_first_wins.2.1 _ _ rfl
  · exact c6_merge_dedup_first_wins.2.2.1 c6SampleA c6SampleB
      (by simp [c6SampleA]) (by simp [c6SampleB])
      (by simp [c6SampleA, c6SampleB]) rfl

/-- The response's product list under the default sort: both response
branches expose the sorted list (the empty branch returns `[]`, which is the
sorted list in that case). -/
theorem searchProducts_products_ppu (results : List (Except String (List Product))) :
    (searchProducts results "price_per_unit").products
      = List.insertionSort (fun a b => ppuSortKey a ≤ ppuSortKey b)
          ((dedupGo (collectOk results) []).map attachPpu) := by
  simp only [searchProducts, if_pos rfl]
  by_cases hemp :
      (List.insertionSort (fun a b => ppuSortKey a ≤ ppuSortKey b)
        ((dedupGo (collectOk results) []).map attachPpu)).isEmpty
  · rw [List.isEmpty_iff] at hemp
    simp [hemp]
  · rw [Bool.not_eq_true] at hemp
    simp [hemp]

/-- **C1 (amended).** When one of three sources fails, the aggregator still
returns the other two sources' merged, deduplicated, price-per-unit-sorted
products — but the response carries no indication of the failure: it is
*identical* to the response of a call where the failing source succeeded with
no matches (and to a call over the two working sources only); failures are
only printed to the log. -/
theorem c1_failure_isolated_but_unreported (l1 l2 : List Product) (e sortBy : String) :
    searchProducts [.ok l1, .error e, .ok l2] sortBy
      = searchProducts [.ok l1, .ok [], .ok l2] sortBy ∧
    searchProducts [.ok l1, .error e, .ok l2] sortBy
      = searchProducts [.ok l1, .ok l2] sortBy ∧
    (searchProducts [.ok l1, .error e, .ok l2] "price_per_unit").products.Perm
      ((dedupGo (l1 ++ l2) []).map attachPpu) ∧
    List.Sorted (fun a b => ppuSortKey a ≤ ppuSortKey b)
      (searchProducts [.ok l1, .error e, .ok l2] "price_per_unit").products := by
  have hco : collectOk [.ok l1, .error e, .ok l2] = l1 ++ l2 := by
    simp [collectOk]
  refine ⟨rfl, rfl, ?_, ?_⟩
  · rw [searchProducts_products_ppu, hco]
    exact List.perm_insertionSort _ _
  · rw [searchProducts_products_ppu, hco]
    exact List.sorted_insertionSort _ _

/-- A concrete AH product for the C1 scenario. -/
def c1Gouda : Product := { store := "ah", name := "Gouda", price := some 3 }

/-- A concrete Plus product for the C1 scenario. -/
def c1Cheddar : Product := { store := "plus", name := "Cheddar", price := some 4 }

/-- **C1 counterexample.** A three-source search in which the middle source
raises `FetchTimeout` produces a response *identical* to the response of a
search in which that source succeeded and simply had no matches: the claimed
explicit report of "exactly one failed source", distinguishing failed
sources from sources with no matches, does not exist — the response has only
`products`, `count` and an optional no-results `message`. -/
theorem c1_counterexample :
    searchProducts [.ok [c1Gouda], .error "FetchTimeout", .ok [c1Cheddar]] "price_per_unit"
      = searchProducts [.ok [c1Gouda], .ok [], .ok [c1Cheddar]] "price_per_unit" := rfl

/-- A product whose unit size matches no recognized pattern. -/
def c2NoUnit : Product :=
  { store := "ah", name := "A", price := some 5, unit_size := some "onbekend" }

/-- A product with a derivable price per unit (€5.00 / 500 g = €10/kg). -/
def c2WithUnit : Product :=
  { store := "ah", name := "B", price := some 5, unit_size := some "500g" }

/-- **C2 counterexample.** A merged product with no pre-computed
`price_per_unit_value` and an unrecognizable unit size gets the *raw price*
(here 5) as its sort value — not an infinitely-expensive one — and under the
default `price_per_unit` sort it appears *before* the product whose
price-per-unit (10 €/kg) is derivable, rather than after every derivable
product as claimed. -/
theorem c2_counterexample :
    calculatePricePerUnit c2NoUnit = ((5 : ℚ) : WithTop ℚ) ∧
    calculatePricePerUnit c2NoUnit ≠ (⊤ : WithTop ℚ) ∧
    calculatePricePerUnit c2WithUnit = ((10 : ℚ) : WithTop ℚ) ∧
    (searchProducts [.ok [c2NoUnit, c2WithUnit]] "price_per_unit").products.map Product.name
      = ["A", "B"] := by
  have hA : calculatePricePerUnit c2NoUnit = ((5 : ℚ) : WithTop ℚ) := by
    simp +decide [calculatePricePerUnit, c2NoUnit, pyStrOfOpt]
  have hB : calculatePricePerUnit c2WithUnit = ((10 : ℚ) : WithTop ℚ) := by
    have hscan : scanNumThen appGTail (pyStrip (pyLower "500g")).data
        = some ⟨['5', '0', '0'], none, []⟩ := by decide
    have htr : (NumTok.toRat ⟨['5', '0', '0'], none, []⟩) = 500 := by
      have h1 : digitsToNat ['5', '0', '0'] = 500 := by decide
      simp [NumTok.toRat, h1, digitsToNat]
    simp +decide [calculatePricePerUnit, c2WithUnit, pyStrOfOpt, hscan, htr, -WithTop.coe_mul]
    norm_num
  refine ⟨hA, by rw [hA]; exact WithTop.coe_ne_top, hB, ?_⟩
  have hAa : attachPpu c2NoUnit
      = { c2NoUnit with price_per_unit := some ((5 : ℚ) : WithTop ℚ) } := by
    rw [attachPpu, show c2NoUnit.price_per_unit_value = none from rfl]
    rw [hA]
    rfl
  have hBa : attachPpu c2WithUnit
      = { c2WithUnit with price_per_unit := some ((10 : ℚ) : WithTop ℚ) } := by
    rw [attachPpu, show c2WithUnit.price_per_unit_value = none from rfl]
    rw [hB]
    rfl
  have hd : dedupGo (collectOk [.ok [c2NoUnit, c2WithUnit]]) [] = [c2NoUnit, c2WithUnit] := by
    simp +decide [collectOk, dedupGo, productKey, c2NoUnit, c2WithUnit]
  rw [searchProducts_products_ppu, hd]
  simp only [List.map_cons, List.map_nil, List.insertionSort, List.orderedInsert]
  rw [hAa, hBa]
  have hcond : ppuSortKey { c2NoUnit with price_per_unit := some ((5 : ℚ) : WithTop ℚ) }
      ≤ ppuSortKey { c2WithUnit with price_per_unit := some ((10 : ℚ) : WithTop ℚ) } := by
    show ((5 : ℚ) : WithTop ℚ) ≤ ((10 : ℚ) : WithTop ℚ)
    rw [WithTop.coe_le_coe]
    norm_num
  simp only [List.orderedInsert]
  rw [if_pos hcond]
  simp [c2NoUnit, c2WithUnit]

/-- **C2 (amended).** A merged product lacking a pre-computed
`price_per_unit_value` whose unit size matches none of the aggregator's
recognized patterns (`stuk`, `plak`, `kg`/`kilo`, `g`/`gram`, digits-only)
receives its *raw price* as the sort value; the infinitely-expensive value
`float('inf')` is assigned (in particular) when the product's price itself is
missing or unparsable — not for an underivable unit size. -/
theorem c2_price_fallback :
    (∀ p : Product, p.price_per_unit_value = none → p.price = none →
      calculatePricePerUnit p = ⊤) ∧
    (∀ (p : Product) (pr : ℚ) (u : String),
      p.price_per_unit_value = none → p.price = some pr → p.unit_size = some u →
      strContains (pyStrip (pyLower u)) "stuk" = false →
      strContains (pyStrip (pyLower u)) "plak" = false →
      strContains (pyStrip (pyLower u)) "kg" = false →
      strContains (pyStrip (pyLower u)) "kilo" = false →
      strContains (pyStrip (pyLower u)) "g" = false →
      strContains (pyStrip (pyLower u)) "gram" = false →
      pyIsDigit (removeSpaceChar (pyStrip (pyLower u)).data) = false →
      calculatePricePerUnit p = ((pr : ℚ) : WithTop ℚ)) := by
  constructor
  · intro p h1 h2
    rw [calculatePricePerUnit, h1, h2]
  · intro p pr u h1 h2 h3 hstuk hplak hkg hkilo hg hgram hdig
    rw [calculatePricePerUnit, h1, h2, h3]
    simp only [pyStrOfOpt, hstuk, hplak, hkg, hkilo, hg, hgram, hdig,
      Bool.false_eq_true, if_false, Bool.or_self, Bool.false_or, Bool.or_false]

/-- Witness for C2's amended statement at a concrete input: the
`"onbekend"` unit size falls back to the raw price 5. -/
theorem c2_price_fallback_witness :
    calculatePricePerUnit c2NoUnit = ((5 : ℚ) : WithTop ℚ) ∧
    calculatePricePerUnit { c2NoUnit with price := none } = ⊤ := by
  constructor
  · exact c2_price_fallback.2 c2NoUnit 5 "onbekend" rfl rfl rfl
      (by decide) (by decide) (by decide) (by decide) (by decide) (by decide) (by decide)
  · exact c2_price_fallback.1 { c2NoUnit with price := none } rfl rfl

/-- **C4 counterexample.** The Plus orchestrator does *not* propagate a fetch
failure: a `FetchTimeout` yields the same outcome (an empty `ok` list, no
cache write) as a successful fetch with an empty extraction, so a failed Plus
source is indistinguishable from a Plus source with no matching products.
Jumbo's "no content extracted" path likewise returns an empty list instead of
surfacing a failure. -/
theorem c4_counterexample :
    plusScrape (.error "FetchTimeout") = plusScrape (.ok (some [])) ∧
    (plusScrape (.error "FetchTimeout")).returned = .ok [] ∧
    (jumboScrape (.ok none)).returned = .ok [] :=
  ⟨rfl, rfl, rfl⟩

/-- **C4 (amended).** AH and Jumbo re-raise fetch/crawl exceptions to the
aggregator; Plus catches every exception and returns an empty list (never
raising), and Jumbo's total-extraction-failure path (no extracted content)
also returns an empty list — for those paths failure is not distinguishable
from "no matching products". -/
theorem c4_failure_propagation :
    (∀ e : String, ahScrape (.error e) = ⟨.error e, none⟩) ∧
    (∀ e : String, jumboScrape (.error e) = ⟨.error e, none⟩) ∧
    (∀ e : String, plusScrape (.error e) = ⟨.ok [], none⟩) ∧
    jumboScrape (.ok none) = ⟨.ok [], none⟩ :=
  ⟨fun _ => rfl, fun _ => rfl, fun _ => rfl, rfl⟩

/-- **C7 counterexample.** `"400g"` and `"0.4kg"` denote the same mass, but
the Jumbo parser maps them to `"400g"` and `"0.4g"` (its kilogram-conversion
branch is unreachable: the branch guard inspects the regex pattern text,
which contains neither `kg` nor `kilo`), and the AH normalization maps them
to `"400g"` and `"4000g"` (its integer-only `(\d+)` group reads the `4` of
`0.4`): the parsers do not produce the same canonical grams value. -/
theorem c7_counterexample :
    jumboExtractUnitSize "400g" = "400g" ∧
    jumboExtractUnitSize "0.4kg" = "0.4g" ∧
    ahNormalizeUnitSize "400g" = "400g" ∧
    ahNormalizeUnitSize "0.4kg" = "4000g" ∧
    ("0.4g" : String) ≠ "400g" ∧
    ("4000g" : String) ≠ "400g" := by
  decide

/-- **C7 (amended).** Of the three unit-size parsers, only Plus's maps the
spec's reference pair `"400g"` / `"0.4kg"` to the same canonical grams value
(`"400g"` for both); AH yields `"4000g"` for `"0.4kg"` (integer-only digit
group) and Jumbo yields `"0.4g"` (unreachable kilogram branch). -/
theorem c7_unit_size_reference_pair :
    plusExtractUnitSize "400g" = "400g" ∧
    plusExtractUnitSize "0.4kg" = "400g" ∧
    ahNormalizeUnitSize "400g" = "400g" ∧
    ahNormalizeUnitSize "0.4kg" = "4000g" ∧
    jumboExtractUnitSize "400g" = "400g" ∧
    jumboExtractUnitSize "0.4kg" = "0.4g" := by
  have hscan : scanNumThenChar plusUnitAlt (stripPerPrefix (pyStrip (pyLower "0.4kg"))).data
      = some (⟨['0'], some '.', ['4']⟩, 'k') := by decide
  have hval : ratTruncToNat (NumTok.toRat ⟨['0'], some '.', ['4']⟩ * 1000) = 400 := by
    have h4 : digitsToNat ['4'] = 4 := by decide
    have h0 : digitsToNat ['0'] = 0 := by decide
    have hq : NumTok.toRat ⟨['0'], some '.', ['4']⟩ * 1000 = 400 := by
      rw [NumTok.toRat, h4, h0]
      norm_num
    rw [ratTruncToNat, hq]
    decide
  refine ⟨by decide, ?_, by decide, by decide, by decide, by decide⟩
  simp +decide [plusExtractUnitSize, hscan, hval]

/-- Reference product: €5.00 for `"500g"`. -/
def c8Weight : Product := { store := "ah", name := "W", price := some 5, unit_size := some "500g" }

/-- Reference product: €5.00 for `"2 stuk"`. -/
def c8Pieces : Product := { store := "ah", name := "P", price := some 5, unit_size := some "2 stuk" }

/-- Reference product: €5.00 with an absent unit size. -/
def c8Absent : Product := { store := "ah", name := "N", price := some 5, unit_size := some "" }

/-- **C8 counterexample.** The Plus scraper's `calculate_price_per_unit`
(one of the two cited derivations) yields `(None, None)` — not
`(10.00, per-kg)` — for price 5.00 and unit `"500g"`: its weight patterns
demand a literal `per` prefix that canonical unit sizes lack. -/
theorem c8_counterexample :
    plusCalculatePricePerUnit 5 "500g" = (none, none) ∧
    plusCalculatePricePerUnit 5 "500g" ≠ (some 10, some "kilo") := by
  decide

/-- **C8 (amended).** The aggregator's `calculate_price_per_unit` produces
the reference *values* 10.00 and 2.50 for `(5.00, "500g")` and
`(5.00, "2 stuk")` but as untagged sort values (it returns no kind), and for
an absent unit it falls back to the raw price 5.00 instead of an absent
result; the Plus scraper's `calculate_price_per_unit` yields the tagged
`(2.50, "stuk")` and the absent `(None, None)` for an absent unit, but also
`(None, None)` for `"500g"` (its weight patterns require a `per` prefix). -/
theorem c8_reference_equations :
    calculatePricePerUnit c8Weight = ((10 : ℚ) : WithTop ℚ) ∧
    calculatePricePerUnit c8Pieces = ((5 / 2 : ℚ) : WithTop ℚ) ∧
    calculatePricePerUnit c8Absent = ((5 : ℚ) : WithTop ℚ) ∧
    plusCalculatePricePerUnit 5 "2 stuk" = (some (5 / 2), some "stuk") ∧
    plusCalculatePricePerUnit 5 "" = (none, none) ∧
    plusCalculatePricePerUnit 5 "500g" = (none, none) := by
  refine ⟨?_, ?_, ?_, ?_, by decide, by decide⟩
  · have hscan : scanNumThen appGTail (pyStrip (pyLower "500g")).data
        = some ⟨['5', '0', '0'], none, []⟩ := by decide
    have htr : (NumTok.toRat ⟨['5', '0', '0'], none, []⟩) = 500 := by
      have h1 : digitsToNat ['5', '0', '0'] = 500 := by decide
      simp [NumTok.toRat, h1, digitsToNat]
    simp +decide [calculatePricePerUnit, c8Weight, pyStrOfOpt, hscan, htr, -WithTop.coe_mul]
    norm_num
  · have hscan : scanDigitsThen (fun cs => isPrefixList ['s', 't', 'u', 'k'] cs)
        (pyStrip (pyLower "2 stuk")).data = some ['2'] := by decide
    have h2 : digitsToNat ['2'] = 2 := by decide
    simp +decide [calculatePricePerUnit, c8Pieces, pyStrOfOpt, hscan, h2]
  · simp +decide [calculatePricePerUnit, c8Absent, pyStrOfOpt]
  · have hscan : scanDigitsThen (fun cs => isPrefixList ['s', 't', 'u', 'k'] cs)
        (pyLower "2 stuk").data = some ['2'] := by decide
    have h2 : digitsToNat ['2'] = 2 := by decide
    simp +decide [plusCalculatePricePerUnit, hscan, h2]

/-- An AH card that parses to price €0.00, with every required field
present. -/
def ahZeroCard : AhCard :=
  { name := some "Gratis kaas", priceElement := true, priceInteger := some "0",
    priceFractional := some "00", imageSrc := some "http://img",
    linkHref := some "/producten/product/2" }

/-- An AH card whose price text parses to −3.50. -/
def ahNegCard : AhCard :=
  { ahZeroCard with priceInteger := some "-3", priceFractional := some "50" }

/-- An AH card with no price element at all. -/
def ahNoPriceCard : AhCard :=
  { name := some "Kaas", priceElement := false, imageSrc := some "http://img",
    linkHref := some "/producten/product/3" }

/-- A Jumbo record whose price text is `€0,00`. -/
def jumboZeroRaw : JumboRaw := { name := "Kaas", price := "€0,00" }

/-- A Jumbo record whose price text contains no parsable price. -/
def jumboNoPriceRaw : JumboRaw := { name := "Kaas", price := "prijs onbekend" }

/-- A Plus record whose price parts parse to 0. -/
def plusZeroRaw : PlusRaw := { name := some "Kaas", priceInteger := "0", priceDecimal := "00" }

/-- **C9 counterexample.** A card whose price parses to zero (or even to a
negative value) is *not* excluded by any of the three extractors: the AH
extractor keeps the €0.00 card and the −3.50 card, the Jumbo extractor keeps
the `€0,00` record, and the Plus cleaning loop returns the zero-price record
in its result list. -/
theorem c9_counterexample :
    (extractAhCard ahZeroCard).isSome = true ∧
    (extractAhCard ahNegCard).isSome = true ∧
    (jumboProcessRaw jumboZeroRaw).isSome = true ∧
    (plusScrape (.ok (some [plusZeroRaw]))).returned = .ok [plusCleanRaw plusZeroRaw] := by
  refine ⟨by decide, by decide, by decide, rfl⟩

/-- **C9 (amended).** No per-source extractor excludes a card for a
zero-or-negative *parsed* price: such cards are retained with their parsed
price (0 here).  What each extractor does exclude is a card whose price
*markup* is missing or unparsable: AH skips a card with no price element and
Jumbo skips a record whose price text contains no `€`-amount.  (Plus drops no
record at all at this stage; an invalid price is only logged.) -/
theorem c9_zero_price_retained :
    (extractAhCard ahZeroCard).map Product.price = some (some 0) ∧
    extractAhCard ahNoPriceCard = none ∧
    (jumboProcessRaw jumboZeroRaw).map Product.price = some (some 0) ∧
    jumboProcessRaw jumboNoPriceRaw = none ∧
    (plusCleanRaw plusZeroRaw).price = some 0 ∧
    (plusScrape (.ok (some [plusZeroRaw]))).returned = .ok [plusCleanRaw plusZeroRaw] := by
  refine ⟨?_, by decide, ?_, by decide, ?_, rfl⟩
  · simp +decide [extractAhCard, ahZeroCard, pyFloat?, pyStrip, digitsToNat]
  · have hes : euroScan "€0,00".data = some (['0'], ['0', '0']) := by decide
    have h0 : digitsToNat ['0'] = 0 := by decide
    have h00 : digitsToNat ['0', '0'] = 0 := by decide
    simp +decide [jumboProcessRaw, jumboZeroRaw, hes, euroCentsToRat, h0, h00]
  · simp +decide [plusCleanRaw, plusZeroRaw, plusParsePrice, digitsToNat]
